import Mathlib

set_option maxRecDepth 16384

/-!
Verification development for the behavior-injection pipeline of the
FallingSandAI repository (src/custom-particles.js, src/openai.js).

The JavaScript source is shallowly embedded over `List Char` / `String`,
`Int` (JS numbers in the integer paths) and exact fractions (the one
fractional path, in `adjustColorForUniqueness`).  The regexes used by the source are
all of the simple form "literals interleaved with `\s*` / `\s+` / `\w+`
runs", whose character classes are disjoint from the neighbouring
literals, so JavaScript's backtracking matcher coincides with the
deterministic greedy machine built here.  `String.prototype.replace` with
a global regex (scan left to right, non-overlapping, resume after each
match) is embedded by `replaceAll` below.
-/

/-- Character class test for the JavaScript regex class `\s` (the members
that can occur in the inputs considered here: ASCII whitespace and NBSP). -/
def isSpaceJS (c : Char) : Bool :=
  c = ' ' || c = '\t' || c = '\n' || c = '\r' || c = '\x0b' || c = '\x0c' || c = ' '

/-- Character class test for the JavaScript regex class `\w`, i.e. `[A-Za-z0-9_]`. -/
def isWordChar (c : Char) : Bool :=
  (('a' ≤ c && c ≤ 'z') || ('A' ≤ c && c ≤ 'Z') || ('0' ≤ c && c ≤ '9') || c = '_')

/-- The two character classes that occur in the source's regexes. -/
inductive CKind where
  | space
  | word
deriving DecidableEq

/-- Membership in a character class. -/
def ckMem : CKind → Char → Bool
  | .space => isSpaceJS
  | .word => isWordChar

/-- One atom of a regex-lite pattern: a literal character, a starred class
(`\s*`-style) or a plus class (`\s+` / `\w+`-style). -/
inductive Atom where
  | lit (c : Char)
  | star (k : CKind)
  | plus (k : CKind)
deriving DecidableEq

/-- Result of feeding one character to the pattern machine. -/
inductive StepR where
  | accept
  | cont (next : List Atom)
  | reject
deriving DecidableEq

/-- Feed one character to the machine whose remaining pattern is `ats`.
A starred class that does not match the character is skipped and the same
character is retried against the rest of the pattern (the classes in the
source's patterns are disjoint from what follows them, so this greedy rule
is exactly the regex semantics). -/
def stepA : List Atom → Char → StepR
  | [], _ => .reject
  | .lit a :: rest, c =>
      if c = a then (match rest with | [] => .accept | _ :: _ => .cont rest) else .reject
  | .star k :: rest, c =>
      if ckMem k c then .cont (.star k :: rest) else stepA rest c
  | .plus k :: rest, c =>
      if ckMem k c then .cont (.star k :: rest) else .reject

/-- Run the machine at the head of `l`; return the length of the match, if any. -/
def runA : List Atom → List Char → Option Nat
  | _, [] => none
  | ats, c :: cs =>
    match stepA ats c with
    | .accept => some 1
    | .cont n => (runA n cs).map (· + 1)
    | .reject => none

/-- Can the machine, started in state `ats`, consume all of `a` without
rejecting (or accept somewhere inside `a`)?  Used to reason about what can
happen to a match that overlaps a replacement string. -/
def viaA : List Atom → List Char → Bool
  | _, [] => true
  | ats, c :: cs =>
    match stepA ats c with
    | .accept => true
    | .cont n => viaA n cs
    | .reject => false

/-- Does the pattern match at some position of `l`? -/
def hasMatchA (M : List Atom) : List Char → Bool
  | [] => false
  | c :: cs => (runA M (c :: cs)).isSome || hasMatchA M cs

/-- All machine states reachable from pattern `P`: its suffixes, plus the
star-variant of every suffix that starts with a plus atom. -/
def statesOf : List Atom → List (List Atom)
  | [] => [[]]
  | .plus k :: rest => (Atom.plus k :: rest) :: (Atom.star k :: rest) :: statesOf rest
  | a :: rest => (a :: rest) :: statesOf rest

/-- Embedding of `String.prototype.replace` with a global regex and a
constant replacement string: scan left to right, replace non-overlapping
matches, resume after each match.  `fuel` only bounds the recursion; any
`fuel ≥ l.length` gives the real behavior since every step consumes at
least one character. -/
def replaceAll (P : List Atom) (r : List Char) : Nat → List Char → List Char
  | _, [] => []
  | 0, l => l
  | fuel + 1, c :: cs =>
    match runA P (c :: cs) with
    | some n => r ++ replaceAll P r fuel (cs.drop (n - 1))
    | none => c :: replaceAll P r fuel cs

/-- Global regex replacement over a full list (with sufficient fuel). -/
def replA (P : List Atom) (r : List Char) (l : List Char) : List Char :=
  replaceAll P r l.length l

/-- Literal atoms for a string. -/
def litAtoms (s : String) : List Atom := s.data.map Atom.lit

/-- Pattern for `/function\s+\w+\s*\(/`. -/
def funcDefPat : List Atom :=
  litAtoms "function" ++ [.plus .space, .plus .word, .star .space, .lit '(']

/-- Pattern for `/while\s*\(/`. -/
def whileParPat : List Atom := litAtoms "while" ++ [.star .space, .lit '(']

/-- Pattern for `/for\s*\(/`. -/
def forParPat : List Atom := litAtoms "for" ++ [.star .space, .lit '(']

/-- Pattern for `/eval\s*\(/`. -/
def evalParPat : List Atom := litAtoms "eval" ++ [.star .space, .lit '(']

/-- Pattern for `/new\s+Function/`. -/
def newFuncPat : List Atom := litAtoms "new" ++ [.plus .space] ++ litAtoms "Function"

/-- Pattern for `/setTimeout/`. -/
def setTimeoutPat : List Atom := litAtoms "setTimeout"

/-- Pattern for `/setInterval/`. -/
def setIntervalPat : List Atom := litAtoms "setInterval"

/-- Pattern for `/window\./`. -/
def windowDotPat : List Atom := litAtoms "window."

/-- Pattern for `/document\./`. -/
def documentDotPat : List Atom := litAtoms "document."

/-- Pattern for `/globalThis\./`. -/
def globalThisDotPat : List Atom := litAtoms "globalThis."

/-- Embeds `sanitizeActionCode` (src/custom-particles.js:390-412): the ten
global regex replacements, in source order. -/
def sanitizeL (l : List Char) : List Char :=
  let c1 := replA funcDefPat [] l
  let c2 := replA whileParPat "if(".data c1
  let c3 := replA forParPat "if(".data c2
  let c4 := replA evalParPat "console.log(".data c3
  let c5 := replA newFuncPat "console.log".data c4
  let c6 := replA setTimeoutPat "console.log".data c5
  let c7 := replA setIntervalPat "console.log".data c6
  let c8 := replA windowDotPat "void_".data c7
  let c9 := replA documentDotPat "void_".data c8
  replA globalThisDotPat "void_".data c9

/-- String-level version of `sanitizeActionCode`. -/
def sanitizeActionCode (s : String) : String := String.mk (sanitizeL s.data)


/-- Bundles the two conditions on a replacement string `r` relative to a
watched pattern `M`: no `M`-match can start inside `r`, and no `M`-state
can traverse `r`. -/
def okRepl (M : List Atom) (r : List Char) : Prop :=
  (∀ j, j < r.length → viaA M (r.drop j) = false) ∧
    (∀ s ∈ statesOf M, viaA s r = false)

instance (M : List Atom) (r : List Char) : Decidable (okRepl M r) := by
  unfold okRepl; infer_instance

/-! ### Rewriter (`preprocessActionCode`, `enhanceCodeBasedOnName`) -/

/-- Embeds `String.prototype.trim`. -/
def trimL (l : List Char) : List Char :=
  ((l.dropWhile isSpaceJS).reverse.dropWhile isSpaceJS).reverse

/-- Embeds `String.prototype.toUpperCase` (ASCII range). -/
def toUpperL (l : List Char) : List Char := l.map Char.toUpper

/-- Embeds `String.prototype.toLowerCase` (ASCII range). -/
def toLowerL (l : List Char) : List Char := l.map Char.toLower

/-- Is `w` a prefix of `l`? -/
def isPrefB : List Char → List Char → Bool
  | [], _ => true
  | _ :: _, [] => false
  | a :: as, b :: bs => a = b && isPrefB as bs

/-- Embeds `String.prototype.includes`: does `needle` occur in the list? -/
def containsL (needle : List Char) : List Char → Bool
  | [] => isPrefB needle []
  | c :: cs => isPrefB needle (c :: cs) || containsL needle cs

/-- String-level `includes`. -/
def containsS (hay needle : String) : Bool := containsL needle.data hay.data

/-- The degenerate unconditional gravity call the source treats as "no real
behavior" (src/custom-particles.js:25). -/
def degenerateGravity : List Char := "doGravity(x, y, i, true, 0.9);".data

/-- Category template for hair-like names (src/custom-particles.js:111-137). -/
def hairTemplate (particleName : String) (elementColor : Int) : List Char :=
  ("\n      // " ++ particleName ++
   " behavior - strands that hang and can be affected by elements\n      if (adjacent(x, i, FIRE)) \x7b\n        // Burns quickly when exposed to fire\n        if (random() < 0.8) \x7b\n          gameImagedata32[i] = FIRE;\n        \x7d\n      \x7d else if (adjacent(x, i, WATER)) \x7b\n        // Gets wet and clumps together\n        doGravity(x, y, i, false, 0.95);\n      \x7d else \x7b\n        // Normal behavior - strands hang and can move slightly\n        if (below(y, i, BACKGROUND) && random() < 0.2) \x7b\n          // Strands can drift slightly to sides\n          if (random() < 0.5 && gameImagedata32[i+1] === BACKGROUND) \x7b\n            gameImagedata32[i] = BACKGROUND;\n            gameImagedata32[i+1] = "
   ++ toString elementColor ++
   ";\n          \x7d else if (gameImagedata32[i-1] === BACKGROUND) \x7b\n            gameImagedata32[i] = BACKGROUND;\n            gameImagedata32[i-1] = "
   ++ toString elementColor ++
   ";\n          \x7d\n        \x7d else \x7b\n          // Falls but can catch on things\n          doGravity(x, y, i, true, 0.7);\n        \x7d\n      \x7d\n    ").data

/-- Category template for gas-like names (src/custom-particles.js:142-156). -/
def gasTemplate (particleName : String) : List Char :=
  ("\n      // " ++ particleName ++
   " - gaseous substance that rises and dissipates\n      doRise(x, y, i, 0.9, 0.7);\n      \n      // Gradually disappears as it rises\n      if (random() < 0.03) \x7b\n        gameImagedata32[i] = BACKGROUND;\n      \x7d\n      \n      // Affected by heat/fire\n      if (adjacent(x, i, FIRE) && random() < 0.5) \x7b\n        // More likely to rise faster near heat\n        doRise(x, y, i, 1.0, 0.9);\n      \x7d\n    ").data

/-- Category template for liquid-like names (src/custom-particles.js:165-175). -/
def liquidTemplate (particleName : String) (floatsOnWater : Bool) (oilName : Bool) : List Char :=
  ("\n      // " ++ particleName ++
   " - liquid with unique properties\n      // Liquid dynamics - flows and spreads\n      doDensityLiquid(x, y, i, "
   ++ (if floatsOnWater then "WATER" else "SAND") ++
   ", 0.9, 0.7);\n      \n      // Interaction with fire\n      if (adjacent(x, i, FIRE) && random() < 0.1) \x7b\n        // Some liquids are flammable, some extinguish fire\n        "
   ++ (if oilName then "gameImagedata32[i] = FIRE;" else "gameImagedata32[i] = STEAM;") ++
   "\n      \x7d\n    ").data

/-- Embeds `enhanceCodeBasedOnName` (src/custom-particles.js:106-180). -/
def enhanceCodeBasedOnName (code : List Char) (particleName : String) (elementColor : Int) :
    List Char :=
  let name := toUpperL particleName.data
  if containsL "HAIR".data name || containsL "FUR".data name || containsL "STRING".data name then
    hairTemplate particleName elementColor
  else if containsL "GAS".data name || containsL "SMOKE".data name ||
      containsL "VAPOR".data name || containsL "STEAM".data name then
    gasTemplate particleName
  else if containsL "WATER".data name || containsL "LIQUID".data name ||
      containsL "OIL".data name || containsL "JUICE".data name ||
      containsL "BLOOD".data name then
    liquidTemplate particleName (containsL "OIL".data name) (containsL "OIL".data name)
  else code

/-- The triviality escape hatch at the head of `preprocessActionCode`
(src/custom-particles.js:25-32): a fragment whose trimmed length is below
50 or which equals the degenerate gravity call is handed to
`enhanceCodeBasedOnName`. -/
def preTrivial (code : List Char) (particleName : String) (elementColor : Int) : List Char :=
  if (trimL code).length < 50 || trimL code = degenerateGravity then
    enhanceCodeBasedOnName code particleName elementColor
  else code

/-- Word-boundary test for the character before a match. -/
def wbOkBefore : Option Char → Bool
  | none => true
  | some p => !isWordChar p

/-- Word-boundary test for the character after a match. -/
def wbOkAfter : List Char → Bool
  | [] => true
  | d :: _ => !isWordChar d

/-- Embeds `new RegExp('\\b' + NAME + '\\b', 'g')` replacement for a literal
word `w` made of word characters (the uppercased particle name), tracking
the previous character for the boundary test. -/
def replaceWordAll (w rpl : List Char) : Nat → Option Char → List Char → List Char
  | _, _, [] => []
  | 0, _, l => l
  | fuel + 1, prev, c :: cs =>
    if !w.isEmpty && wbOkBefore prev && isPrefB w (c :: cs) &&
        wbOkAfter ((c :: cs).drop w.length) then
      rpl ++ replaceWordAll w rpl fuel w.getLast? (cs.drop (w.length - 1))
    else
      c :: replaceWordAll w rpl fuel (some c) cs

/-- Word-boundary replacement over a full list. -/
def replaceWordB (w rpl l : List Char) : List Char := replaceWordAll w rpl l.length none l

/-- Pattern for `/bordering\s*\(\s*x\s*,\s*y\s*,\s*i\s*,\s*FIRE\s*\)/`
(src/custom-particles.js:42). -/
def borderingPat : List Atom :=
  litAtoms "bordering" ++ [.star .space, .lit '('] ++ [.star .space, .lit 'x'] ++
    [.star .space, .lit ','] ++ [.star .space, .lit 'y'] ++ [.star .space, .lit ','] ++
    [.star .space, .lit 'i'] ++ [.star .space, .lit ','] ++ [.star .space] ++
    litAtoms "FIRE" ++ [.star .space, .lit ')']

/-- Replacement text for the bordering-pattern rewrite. -/
def borderingRepl : List Char :=
  "adjacent(x, i, FIRE) || below(y, i, FIRE) || above(y, i, FIRE)".data

/-- Pattern for `/THIS_ELEMENT_COLOR/`. -/
def thisElemPat : List Atom := litAtoms "THIS_ELEMENT_COLOR"

/-- Take/drop split on a character class, returning the prefix length. -/
def spanRest (p : Char → Bool) (l : List Char) : List Char := l.dropWhile p

/-- Class `[A-Z_]` of the neighbour-write regex. -/
def upAZu (c : Char) : Bool := ('A' ≤ c && c ≤ 'Z') || c = '_'

/-- Strip a literal prefix, or fail. -/
def stripPref (w l : List Char) : Option (List Char) :=
  if isPrefB w l then some (l.drop w.length) else none

/-- Parses the neighbour-write regex
`/gameImagedata32\[i\s*([+-])\s*(\w+)\]\s*=\s*([A-Z_]+)\s*;/` at the head of
`l`, returning the match length, the offset capture and the element-name
capture (src/custom-particles.js:47). -/
def arrParse (l : List Char) : Option (Nat × List Char × List Char) :=
  match stripPref "gameImagedata32[i".data l with
  | none => none
  | some r0 =>
    match spanRest isSpaceJS r0 with
    | [] => none
    | c :: r2 =>
      if c = '+' || c = '-' then
        let r3 := spanRest isSpaceJS r2
        let off := r3.takeWhile isWordChar
        if off.isEmpty then none else
        match r3.dropWhile isWordChar with
        | ']' :: r5 =>
          match spanRest isSpaceJS r5 with
          | '=' :: r7 =>
            let r8 := spanRest isSpaceJS r7
            let elem := r8.takeWhile upAZu
            if elem.isEmpty then none else
            match r8.dropWhile upAZu with
            | ';' :: r10 => some (l.length - r10.length, off, elem)
            | _ => none
          | _ => none
        | _ => none
      else none

/-- The list of known built-in element names
(`isKnownElement`, src/custom-particles.js:187-195). -/
def knownElements : List String :=
  ["BACKGROUND", "WALL", "SAND", "WATER", "PLANT", "FIRE", "SALT", "OIL",
   "SPOUT", "WELL", "TORCH", "GUNPOWDER", "WAX", "ICE", "LAVA", "CRYO",
   "NITRO", "STEAM", "C4", "FUSE", "SALT_WATER", "FALLING_WAX"]

/-- Embeds `isKnownElement`. -/
def isKnownElement (elementName : String) : Bool := knownElements.contains elementName

/-- Embeds `String.prototype.replace` with a plain-string first argument:
replace the first occurrence only. -/
def replaceFirstL (tgt rpl : List Char) : List Char → List Char
  | [] => []
  | c :: cs =>
    if isPrefB tgt (c :: cs) then rpl ++ (c :: cs).drop tgt.length
    else c :: replaceFirstL tgt rpl cs

/-- The neighbour-write matcher together with its function replacement
(src/custom-particles.js:48-66): fire and background writes pass, the
self-reference placeholder becomes the element color, known elements pass,
anything else becomes a fire write. -/
def arrMatchRepl (elementColor : Int) (l : List Char) : Option (Nat × List Char) :=
  match arrParse l with
  | none => none
  | some (n, _, elem) =>
    let matched := l.take n
    let repl :=
      if elem == "FIRE".data || elem == "BACKGROUND".data then matched
      else if elem == "THIS_ELEMENT_COLOR".data then
        replaceFirstL "THIS_ELEMENT_COLOR".data (toString elementColor).data matched
      else if isKnownElement (String.mk elem) then matched
      else replaceFirstL elem "FIRE".data matched
    some (n, repl)

/-- Global replacement with a per-match computed replacement, for the
neighbour-write rewrite. -/
def replaceFnAll (m : List Char → Option (Nat × List Char)) : Nat → List Char → List Char
  | _, [] => []
  | 0, l => l
  | fuel + 1, c :: cs =>
    match m (c :: cs) with
    | some (n, rep) => rep ++ replaceFnAll m fuel (cs.drop (n - 1))
    | none => c :: replaceFnAll m fuel cs

/-- Front part of the explosive-category wrap (src/custom-particles.js:78-90). -/
def tntWrapPre : String :=
  "\n        // Check for contact with fire for explosion\n        if (adjacent(x, i, FIRE) || below(y, i, FIRE) || above(y, i, FIRE)) \x7b\n          // Create explosion\n          gameImagedata32[i] = FIRE;\n          // Set surrounding pixels to FIRE\n          if (i+1 < gameImagedata32.length) gameImagedata32[i+1] = FIRE;\n          if (i-1 >= 0) gameImagedata32[i-1] = FIRE;\n          if (i+width < gameImagedata32.length) gameImagedata32[i+width] = FIRE;\n          if (i-width >= 0) gameImagedata32[i-width] = FIRE;\n        \x7d else \x7b\n          // Default behavior\n          "

/-- Back part of the explosive-category wrap (src/custom-particles.js:90-92). -/
def tntWrapPost : String := "\n        \x7d\n      "

/-- Embeds `preprocessActionCode` (src/custom-particles.js:23-97): the
triviality escape hatch, self-reference resolution (word-boundary
replacement of the uppercased name; the names of interest are made of word
characters), aggregate-adjacency expansion, neighbour-write validation,
self-reference substitution and the explosive-category wrap. -/
def preprocessActionCode (code0 : List Char) (particleName : String) (elementColor : Int) :
    List Char :=
  let code1 := preTrivial code0 particleName elementColor
  let nameUp := toUpperL particleName.data
  let code2 := replaceWordB nameUp "THIS_ELEMENT_COLOR".data code1
  let code3 := replA borderingPat borderingRepl code2
  let code4 := replaceFnAll (arrMatchRepl elementColor) code3.length code3
  let code5 := replA thisElemPat (toString elementColor).data code4
  if (containsL "TNT".data nameUp || containsL "BOMB".data nameUp ||
      containsL "EXPLO".data nameUp)
      && !containsL "FIRE".data code5 && !containsL "fire".data code5 then
    tntWrapPre.data ++ code5 ++ tntWrapPost.data
  else code5

/-! ### Particle registry (`registerCustomParticle`) -/

/-- Embeds the brace-index search of the function-body extraction. -/
def indexOfChar (c : Char) : List Char → Option Nat
  | [] => none
  | d :: ds => if d = c then some 0 else (indexOfChar c ds).map (· + 1)

/-- Embeds the matching-brace scan (src/custom-particles.js:222-234):
`count` is the running brace count, `idx` the index of the next character. -/
def findCloseBrace : Nat → Nat → List Char → Option Nat
  | _, _, [] => none
  | count, idx, d :: ds =>
    let count' := if d = '\x7b' then count + 1 else if d = '\x7d' then count - 1 else count
    if count' = 0 then some idx else findCloseBrace count' (idx + 1) ds

/-- Embeds the function-body extraction in `registerCustomParticle`
(src/custom-particles.js:215-241): trim; when the code starts with
`function`, cut out the text between the outer braces and trim it. -/
def extractFunctionBody (raw : List Char) : List Char :=
  let t := trimL raw
  if isPrefB "function".data t then
    match indexOfChar '\x7b' t with
    | none => t
    | some openIdx =>
      match findCloseBrace 1 (openIdx + 1) (t.drop (openIdx + 1)) with
      | none => t
      | some closeIdx => trimL ((t.take closeIdx).drop (openIdx + 1))
  else t

/-- Front part of the safe wrapper used on the new-particle path
(src/custom-particles.js:331-340). -/
def safeWrapNewPre : String :=
  "\n        try \x7b\n          // Default to simple behavior as fallback with small probability\n          if (Math.random() < 0.1) \x7b\n            doGravity(x, y, i, true, 0.9);\n            return;\n          \x7d\n          \n          // Custom particle code below\n          "

/-- Back part of the safe wrapper used on the new-particle path
(src/custom-particles.js:340-346). -/
def safeWrapNewPost : String :=
  "\n        \x7d catch (error) \x7b\n          console.error(\"Error in particle action:\", error);\n          // Default fallback behavior\n          doGravity(x, y, i, true, 1.0);\n        \x7d\n      "

/-- Front part of the safe wrapper used on the update path
(src/custom-particles.js:250-259). -/
def safeWrapUpdPre : String :=
  "\n          try \x7b\n            // Default to simple behavior as fallback\n            if (Math.random() < 0.1) \x7b\n              doGravity(x, y, i, true, 0.9);\n              return;\n            \x7d\n            \n            // Custom particle code below\n            "

/-- Back part of the safe wrapper used on the update path
(src/custom-particles.js:259-265). -/
def safeWrapUpdPost : String :=
  "\n          \x7d catch (error) \x7b\n            console.error(\"Error in particle action:\", error);\n            // Default fallback behavior\n            doGravity(x, y, i, true, 1.0);\n          \x7d\n        "

/-- The full text handed to the `Function` constructor for a particle:
extraction, sanitization, rewriting, then the safe wrapper (update or
new-particle variant). -/
def buildActionCode (raw : String) (particleName : String) (elementColor : Int)
    (isUpdate : Bool) : String :=
  let a0 := extractFunctionBody raw.data
  let a1 := sanitizeL a0
  let a2 := preprocessActionCode a1 particleName elementColor
  if isUpdate then String.mk (safeWrapUpdPre.data ++ a2 ++ safeWrapUpdPost.data)
  else String.mk (safeWrapNewPre.data ++ a2 ++ safeWrapNewPost.data)

/-- A registered action callable: the outer safe wrapper is determined by
the compiled function (an opaque handle produced by the compile oracle) and
the particle name (`createSafeParticleAction`). -/
structure SafeAction where
  fn : Nat
  name : String
deriving DecidableEq

/-- Insertion-ordered association list update (JavaScript object assignment:
replace in place if the key exists, else append). -/
def alSet {α β : Type} [BEq α] (k : α) (v : β) : List (α × β) → List (α × β)
  | [] => [(k, v)]
  | (k', v') :: rest => if k' == k then (k', v) :: rest else (k', v') :: alSet k v rest

/-- The mutable state touched by `registerCustomParticle`: the module's two
maps and counter (src/custom-particles.js:8-14) and the engine's menu-name
map and element/action tables (external collaborators per the spec, §6). -/
structure RegState where
  customElementColors : List (String × Int)
  customElementActions : List (Int × SafeAction)
  menuNames : List (Int × String)
  elements : List Int
  elementActions : List SafeAction
  nextCustomElementIdx : Nat
deriving DecidableEq

/-- A particle description as consumed by `registerCustomParticle`. -/
structure ParticleData where
  name : String
  color : Int × Int × Int
  action_code : String

/-- JavaScript truthiness lookup `customElementColors[name]`: a stored `0`
is falsy and behaves like an absent key. -/
def jsTruthyLookup (m : List (String × Int)) (k : String) : Option Int :=
  match m.lookup k with
  | some c => if c ≠ 0 then some c else none
  | none => none

/-- Modelled from the spec: `__inGameColor` is not part of the repository
sources (the engine is an external collaborator, spec §6); the spec calls
its result a "unique 32-bit-range integer" used directly as the grid pixel
value.  The channel layout is fixed by `getColorComponents`
(src/custom-particles.js:511-516): red in the low byte, green and blue
above, alpha `0xFF` on top; JavaScript bitwise operators make the 32-bit
value signed, hence the `- 2^32` lowering.  The result is always negative,
in particular never `0`. -/
def inGameColor (r g b : Int) : Int :=
  (-16777216) + 65536 * b.emod 256 + 256 * g.emod 256 + r.emod 256

/-- Embeds `registerCustomParticle` (src/custom-particles.js:201-383).
State is passed explicitly; the `Function` constructor is an oracle
`compile` returning an opaque handle on success.  The returned state
carries all mutations performed before a failure, exactly as the
JavaScript global state does when the function throws. -/
def registerCustomParticle (compile : String → Option Nat) (st : RegState)
    (pd : ParticleData) : RegState × Except String Int :=
  match jsTruthyLookup st.customElementColors pd.name with
  | some elementColor =>
    match compile (buildActionCode pd.action_code pd.name elementColor true) with
    | none => (st, .error "Failed to update action function")
    | some f =>
      let safe : SafeAction := ⟨f, pd.name⟩
      let st' := { st with customElementActions := alSet elementColor safe st.customElementActions }
      (st', .ok elementColor)
  | none =>
    let elementColor := inGameColor pd.color.1 pd.color.2.1 pd.color.2.2
    let st1 := { st with customElementColors := alSet pd.name elementColor st.customElementColors, menuNames := alSet elementColor pd.name st.menuNames }
    match compile (buildActionCode pd.action_code pd.name elementColor false) with
    | none => (st1, .error "Failed to create action function")
    | some f =>
      let safe : SafeAction := ⟨f, pd.name⟩
      let st2 := { st1 with customElementActions := alSet elementColor safe st1.customElementActions, elements := st1.elements ++ [elementColor], elementActions := st1.elementActions ++ [safe], nextCustomElementIdx := st1.nextCustomElementIdx + 1 }
      (st2, .ok elementColor)

/-! ### Execution wrapper (`createSafeParticleAction`) -/

/-- The four fallback behaviors of the outer wrapper. -/
inductive FallbackKind where
  | fire
  | liquid
  | gas
  | gravity
deriving DecidableEq

/-- Keyword dispatch of the outer wrapper's catch branch
(src/custom-particles.js:437-453). -/
def nameFallback (particleName : String) : FallbackKind :=
  let up := toUpperL particleName.data
  if containsL "TNT".data up || containsL "BOMB".data up || containsL "EXPLO".data up then
    .fire
  else if containsL "WATER".data up || containsL "LIQUID".data up then .liquid
  else if containsL "GAS".data up || containsL "SMOKE".data up then .gas
  else .gravity

/-- The engine primitives the wrapper's catch branch calls, over an
abstract grid state `G` (external collaborators, spec §6); each field
embeds the exact call in the source: `gameImagedata32[i] = FIRE`,
`doDensityLiquid(x, y, i, SAND, 0.9, 0.6)`, `doRise(x, y, i, 0.9, 0.6)`,
`doGravity(x, y, i, true, 0.8)`. -/
structure EnginePrims (G : Type) where
  setFire : G → Nat → G
  densityLiquid : G → Nat → Nat → Nat → G
  rise : G → Nat → Nat → Nat → G
  gravity : G → Nat → Nat → Nat → G

/-- The fallback applied by the outer wrapper when the inner callable throws. -/
def applyFallback {G : Type} (prims : EnginePrims G) (particleName : String)
    (g : G) (x y i : Nat) : G :=
  match nameFallback particleName with
  | .fire => prims.setFire g i
  | .liquid => prims.densityLiquid g x y i
  | .gas => prims.rise g x y i
  | .gravity => prims.gravity g x y i

/-- Embeds `createSafeParticleAction` (src/custom-particles.js:420-456):
run the compiled callable; on any exception apply the name-keyword
fallback.  (The timing telemetry only logs and does not affect the state.) -/
def createSafeParticleAction {G : Type} (prims : EnginePrims G)
    (actionFn : G → Nat → Nat → Nat → Except String G) (particleName : String) :
    G → Nat → Nat → Nat → Except String G :=
  fun g x y i =>
    match actionFn g x y i with
    | .ok g' => .ok g'
    | .error _ => .ok (applyFallback prims particleName g x y i)

/-! ### Uniqueness validator and color adjuster (src/openai.js) -/

/-- String-level `toUpperCase`. -/
def toUpperS (s : String) : String := String.mk (toUpperL s.data)

/-- String-level `toLowerCase`. -/
def toLowerS (s : String) : String := String.mk (toLowerL s.data)

/-- String-level `trim`. -/
def trimS (s : String) : String := String.mk (trimL s.data)

/-- A generated particle description after JSON parsing (src/openai.js):
the three fields the pipeline reads. -/
structure GenParticle where
  name : String
  color : Int × Int × Int
  action_code : String
deriving DecidableEq

/-- Result of `validateUniqueParticle`. -/
structure VResult where
  isValid : Bool
  message : String
deriving DecidableEq

/-- The fixed built-in palette of `validateUniqueParticle`
(src/openai.js:578-587). -/
def standardColors : List (String × (Int × Int × Int)) :=
  [("FIRE", (255, 0, 10)), ("WATER", (0, 10, 255)), ("PLANT", (0, 220, 0)),
   ("SAND", (223, 193, 99)), ("WALL", (127, 127, 127)), ("OIL", (150, 60, 0)),
   ("LAVA", (245, 110, 40)), ("ICE", (200, 200, 255))]

/-- Squared Euclidean distance in RGB space.  The source compares
`Math.sqrt(d2) < 60`; since both sides are nonnegative this is equivalent
to `d2 < 3600`, which is how the comparison is embedded. -/
def distSq (a b : Int × Int × Int) : Int :=
  (a.1 - b.1) ^ 2 + (a.2.1 - b.2.1) ^ 2 + (a.2.2 - b.2.2) ^ 2

/-- Renders a color the way the validator's message template does. -/
def colorBracket (c : Int × Int × Int) : String :=
  "[" ++ toString c.1 ++ "," ++ toString c.2.1 ++ "," ++ toString c.2.2 ++ "]"

/-- Embeds `validateUniqueParticle` (src/openai.js:574-638): flag any color
within distance 60 of a built-in palette entry, then the degenerate- and
generic-behavior checks on the action code. -/
def validateUniqueParticle (pd : GenParticle) : VResult :=
  match standardColors.find? (fun e => distSq pd.color e.2 < 3600) with
  | some (elementName, ec) =>
    ⟨false, "Color " ++ colorBracket pd.color ++ " is too similar to " ++
      elementName ++ " " ++ colorBracket ec⟩
  | none =>
    let code := toLowerS pd.action_code
    if trimS code == "dogravity(x, y, i, true, 0.9);" ||
        trimS code == "dogravity(x, y, i, true, 1.0);" then
      ⟨false, "Action code is too simple/generic (just basic gravity)"⟩
    else
      let nm := toLowerS pd.name
      if containsS nm "fire" && containsS code "fire" && !containsS code "water" &&
          !containsS code "sand" then
        ⟨false, "Fire-like particle with too generic behavior"⟩
      else if containsS nm "water" && containsS code "densityliquid" &&
          code.length < 50 then
        ⟨false, "Water-like particle with too generic behavior"⟩
      else ⟨true, "Particle is unique"⟩

/-- An exact unnormalized fraction over `Int` (denominator kept positive in
every use below).  It embeds the one fractional computation of
`adjustColorForUniqueness`; an explicit pair is used because the kernel
cannot reduce `ℚ`'s gcd-normalizing arithmetic on concrete inputs. -/
structure QF where
  num : Int
  den : Int
deriving DecidableEq

/-- An integer as a fraction. -/
def qfOfInt (n : Int) : QF := ⟨n, 1⟩

/-- Fraction multiplication. -/
def qfMul (a b : QF) : QF := ⟨a.num * b.num, a.den * b.den⟩

/-- Fraction division (the divisors used below are positive). -/
def qfDiv (a b : QF) : QF := ⟨a.num * b.den, a.den * b.num⟩

/-- The rational value of a fraction. -/
def qfVal (q : QF) : ℚ := (q.num : ℚ) / (q.den : ℚ)

/-- Embeds `Math.round` (half-up): `⌊q + 1/2⌋` for a fraction with positive
denominator, via integer floor division. -/
def qfRound (q : QF) : Int := Int.fdiv (2 * q.num + q.den) (2 * q.den)

/-- Embeds `Math.min` on two integers. -/
def jsMinI (a b : Int) : Int := if a ≤ b then a else b

/-- Embeds `Math.max` on two integers. -/
def jsMaxI (a b : Int) : Int := if a ≤ b then b else a

/-- Embeds `Math.max(0, Math.min(255, x))`. -/
def clamp255 (x : Int) : Int := jsMaxI 0 (jsMinI 255 x)

/-- Embeds `adjustColorForUniqueness` (src/openai.js:646-691).  The keyword
branches and the complement are integer arithmetic in JavaScript (integer
inputs stay integral there), so they are embedded over `Int`; the general
branch's `ratio` product is the one fractional computation and is embedded
as an exact fraction before `Math.round`.  The source's unused `minChannel` is
omitted; the final `Math.round` is the identity on these integer values,
leaving the `[0,255]` clamp. -/
def adjustColorForUniqueness (color : Int × Int × Int) (name : String) : Int × Int × Int :=
  let nameUpper := toUpperS name
  let rgb : Int × Int × Int :=
    if containsS nameUpper "FIRE" || containsS nameUpper "FLAME" then
      (jsMinI 255 (color.1 + 20), jsMinI 255 (color.2.1 + 80), jsMinI 255 (color.2.2 + 120))
    else if containsS nameUpper "WATER" || containsS nameUpper "LIQUID" then
      (jsMinI 255 (color.1 + 40), jsMinI 255 (color.2.1 + 150), jsMaxI 150 (color.2.2 - 30))
    else if containsS nameUpper "PLANT" || containsS nameUpper "LEAF" then
      (jsMinI 255 (color.1 + 100), jsMaxI 100 (color.2.1 - 70), jsMinI 255 (color.2.2 + 40))
    else
      let maxChannel := jsMaxI color.1 (jsMaxI color.2.1 color.2.2)
      let sat : Int × Int × Int :=
        if 0 < maxChannel then
          let ratio : QF := qfDiv (qfOfInt 255) (qfOfInt maxChannel)
          (qfRound (qfMul (qfMul (qfOfInt color.1) ratio) (qfDiv (qfOfInt 4) (qfOfInt 5))),
            qfRound (qfMul (qfMul (qfOfInt color.2.1) ratio) (qfDiv (qfOfInt 4) (qfOfInt 5))),
            qfRound (qfMul (qfMul (qfOfInt color.2.2) ratio) (qfDiv (qfOfInt 4) (qfOfInt 5))))
        else color
      (255 - sat.1, 255 - sat.2.1, 255 - sat.2.2)
  (clamp255 rgb.1, clamp255 rgb.2.1, clamp255 rgb.2.2)

/-- A parsed generation response before field checks: an absent `name` or
`action_code` is the empty string, an absent or non-array `color` is `none`. -/
structure RawGen where
  name : String
  color : Option (List Int)
  action_code : String

/-- Embeds the response-finalization section of `generateParticle`
(src/openai.js:521-558): required-field check, forcing the name to the
uppercased requested name, color shape check and clamp, uniqueness
validation with color adjustment.  (The network, JSON extraction and
storage into `customParticles` lie outside this claim set.) -/
def finalizeParticleData (particleName : String) (pd : RawGen) :
    Except String GenParticle :=
  if pd.name == "" || pd.color == none || pd.action_code == "" then
    .error "Response missing required fields (name, color, or action_code)"
  else
    match pd.color with
    | none => .error "Response missing required fields (name, color, or action_code)"
    | some cols =>
      let nm0 := toUpperS pd.name
      let nm := if nm0 ≠ toUpperS particleName then toUpperS particleName else nm0
      if cols.length ≠ 3 then .error "Color must be an array of 3 numbers [r, g, b]"
      else
        match cols with
        | [cr, cg, cb] =>
          let c : Int × Int × Int := (clamp255 cr, clamp255 cg, clamp255 cb)
          let p : GenParticle := ⟨nm, c, pd.action_code⟩
          let v := validateUniqueParticle p
          if v.isValid then .ok p
          else .ok { p with color := adjustColorForUniqueness p.color p.name }
        | _ => .error "Color must be an array of 3 numbers [r, g, b]"

/-- The TNT test description of `createTestParticle`
(src/custom-particles.js:565-599): name, color and action fragment. -/
def tntTestParticle : GenParticle :=
  { name := "TNT"
    color := (255, 60, 30)
    action_code :=
      "\n      // Check if TNT is in contact with fire\n      if (adjacent(x, i, FIRE) || below(y, i, FIRE) || above(y, i, FIRE)) \x7b\n        // Create explosion\n        gameImagedata32[i] = FIRE; // Center becomes fire\n        \n        // Set surrounding pixels to fire to create explosion effect\n        if (i+1 < gameImagedata32.length) gameImagedata32[i+1] = FIRE;\n        if (i-1 >= 0) gameImagedata32[i-1] = FIRE;\n        if (i+width < gameImagedata32.length) gameImagedata32[i+width] = FIRE;\n        if (i-width >= 0) gameImagedata32[i-width] = FIRE;\n        \n        // Larger explosion radius\n        if (i+width+1 < gameImagedata32.length) gameImagedata32[i+width+1] = FIRE;\n        if (i+width-1 < gameImagedata32.length && i+width-1 >= 0) gameImagedata32[i+width-1] = FIRE;\n        if (i-width+1 >= 0 && i-width+1 < gameImagedata32.length) gameImagedata32[i-width+1] = FIRE;\n        if (i-width-1 >= 0) gameImagedata32[i-width-1] = FIRE;\n      \x7d else \x7b\n        // Normal behavior - falls like sand\n        doGravity(x, y, i, true, 0.9);\n      \x7d\n    " }

/-- Decidable equality for `Except`, for evaluating the registry model on
concrete inputs. -/
instance exceptDecEq {ε α : Type} [DecidableEq ε] [DecidableEq α] :
    DecidableEq (Except ε α) := fun x y =>
  match x, y with
  | .ok a, .ok b =>
    if h : a = b then .isTrue (h ▸ rfl) else .isFalse (fun he => h (Except.ok.inj he))
  | .error e, .error f =>
    if h : e = f then .isTrue (h ▸ rfl) else .isFalse (fun he => h (Except.error.inj he))
  | .ok _, .error _ => .isFalse (fun he => Except.noConfusion he)
  | .error _, .ok _ => .isFalse (fun he => Except.noConfusion he)

/-! ### Matcher theory

The lemmas below support the claims about `sanitizeActionCode`: a
replacement pass cannot leave (or create) a match of a pattern when the
replacement string can neither start a match (`HA`-style hypotheses) nor
be traversed by a partial match (`HB`-style hypotheses). -/

/-- Mapping preserves `isSome`. -/
theorem optMapIsSome {α β : Type} (f : α → β) (o : Option α) :
    (o.map f).isSome = o.isSome := by cases o <;> rfl

/-- If the machine matches a prefix of `a ++ t`, it can traverse `a`
without rejecting. -/
theorem viaA_of_runA_isSome :
    ∀ (a : List Char) (ats : List Atom) (t : List Char),
      (runA ats (a ++ t)).isSome = true → viaA ats a = true := by
  intro a
  induction a with
  | nil => intro ats t _; rfl
  | cons c a' ih =>
    intro ats t h
    rw [List.cons_append] at h
    unfold runA at h
    unfold viaA
    cases hs : stepA ats c with
    | accept => simp
    | cont m =>
      rw [hs] at h
      simp only
      rw [optMapIsSome] at h
      exact ih m t h
    | reject => rw [hs] at h; simp at h

/-- Every pattern is a state of its own machine. -/
theorem self_mem_statesOf (P : List Atom) : P ∈ statesOf P := by
  cases P with
  | nil => simp [statesOf]
  | cons a rest => cases a <;> simp [statesOf]

/-- States are preserved when the pattern is extended on the left. -/
theorem mem_statesOf_mono {s : List Atom} (a : Atom) (P : List Atom)
    (h : s ∈ statesOf P) : s ∈ statesOf (a :: P) := by
  cases a <;> simp [statesOf] <;> tauto

/-- The tail of a state is a state. -/
theorem mem_statesOf_rest :
    ∀ (P : List Atom) (a : Atom) (rest : List Atom),
      (a :: rest) ∈ statesOf P → rest ∈ statesOf P := by
  intro P
  induction P with
  | nil => intro a rest h; simp [statesOf] at h
  | cons x P' ih =>
    intro a rest h
    cases x with
    | lit ch =>
      simp [statesOf] at h
      rcases h with ⟨ha, hrest⟩ | h
      · subst hrest; exact mem_statesOf_mono _ _ (self_mem_statesOf _)
      · exact mem_statesOf_mono _ _ (ih a rest h)
    | star k =>
      simp [statesOf] at h
      rcases h with ⟨ha, hrest⟩ | h
      · subst hrest; exact mem_statesOf_mono _ _ (self_mem_statesOf _)
      · exact mem_statesOf_mono _ _ (ih a rest h)
    | plus k =>
      simp [statesOf] at h
      rcases h with ⟨ha, hrest⟩ | ⟨ha, hrest⟩ | h
      · subst hrest; exact mem_statesOf_mono _ _ (self_mem_statesOf _)
      · subst hrest; exact mem_statesOf_mono _ _ (self_mem_statesOf _)
      · exact mem_statesOf_mono _ _ (ih a rest h)

/-- The star-variant of a plus-headed state is a state. -/
theorem star_variant_mem_statesOf :
    ∀ (P : List Atom) (k : CKind) (rest : List Atom),
      (Atom.plus k :: rest) ∈ statesOf P → (Atom.star k :: rest) ∈ statesOf P := by
  intro P
  induction P with
  | nil => intro k rest h; simp [statesOf] at h
  | cons x P' ih =>
    intro k rest h
    cases x with
    | lit ch =>
      simp [statesOf] at h
      exact mem_statesOf_mono _ _ (ih k rest h)
    | star k' =>
      simp [statesOf] at h
      exact mem_statesOf_mono _ _ (ih k rest h)
    | plus k' =>
      simp [statesOf] at h
      rcases h with ⟨hk, hrest⟩ | h
      · subst hk; subst hrest; simp [statesOf]
      · exact mem_statesOf_mono _ _ (ih k rest h)

/-- The state set is closed under machine steps. -/
theorem stepA_cont_mem (P : List Atom) :
    ∀ (s : List Atom), s ∈ statesOf P → ∀ (c : Char) (s' : List Atom),
      stepA s c = .cont s' → s' ∈ statesOf P := by
  intro s
  induction s with
  | nil => intro _ c s' h; simp [stepA] at h
  | cons a rest ih =>
    intro hmem c s' h
    cases a with
    | lit ch =>
      unfold stepA at h
      by_cases hc : c = ch
      · rw [if_pos hc] at h
        cases rest with
        | nil => simp at h
        | cons b bs =>
          simp at h
          subst h
          exact mem_statesOf_rest P _ _ hmem
      · rw [if_neg hc] at h; simp at h
    | star k =>
      unfold stepA at h
      by_cases hk : ckMem k c = true
      · rw [if_pos hk] at h
        simp at h
        subst h
        exact hmem
      · rw [if_neg hk] at h
        exact ih (mem_statesOf_rest P _ _ hmem) c s' h
    | plus k =>
      unfold stepA at h
      by_cases hk : ckMem k c = true
      · rw [if_pos hk] at h
        simp at h
        subst h
        exact star_variant_mem_statesOf P k rest hmem
      · rw [if_neg hk] at h; simp at h

/-- Core transfer lemma: when the replacement string `r` cannot be
traversed by any state of the pattern machine `M`, a match of `M` at the
head of a replacement pass's output implies a match of `M` at the head of
its input. -/
theorem runA_replaceAll_transfer (P M : List Atom) (r : List Char)
    (HB : ∀ s ∈ statesOf M, viaA s r = false) :
    ∀ (fuel : Nat) (l : List Char) (s : List Atom), l.length ≤ fuel → s ∈ statesOf M →
      (runA s (replaceAll P r fuel l)).isSome = true → (runA s l).isSome = true := by
  intro fuel
  induction fuel with
  | zero =>
    intro l s hlen _ h
    have hl : l = [] := List.length_eq_zero.mp (Nat.le_zero.mp hlen)
    subst hl
    simp [replaceAll, runA] at h
  | succ fuel ih =>
    intro l s hlen hs h
    cases l with
    | nil => simp [replaceAll, runA] at h
    | cons c cs =>
      cases hm : runA P (c :: cs) with
      | some n =>
        simp only [replaceAll, hm] at h
        have hv := viaA_of_runA_isSome r s _ h
        rw [HB s hs] at hv
        exact absurd hv (by simp)
      | none =>
        simp only [replaceAll, hm] at h
        unfold runA at h ⊢
        cases hs' : stepA s c with
        | accept => simp
        | cont m =>
          rw [hs'] at h
          simp only
          rw [optMapIsSome] at h ⊢
          have hmem' := stepA_cont_mem M s hs c m hs'
          exact ih cs m (Nat.le_of_succ_le_succ (by simpa using hlen)) hmem' h
        | reject => rw [hs'] at h; simp at h

/-- A match inside `a ++ t` starts inside `a` or lies inside `t`. -/
theorem hasMatchA_append_decomp (M : List Atom) :
    ∀ (a t : List Char), hasMatchA M (a ++ t) = true →
      (∃ j, j < a.length ∧ (runA M (a.drop j ++ t)).isSome = true) ∨
        hasMatchA M t = true := by
  intro a
  induction a with
  | nil => intro t h; right; simpa using h
  | cons c a' ih =>
    intro t h
    rw [List.cons_append] at h
    unfold hasMatchA at h
    rcases Bool.or_eq_true_iff.mp h with h0 | hrest
    · left
      exact ⟨0, by simp, by simpa using h0⟩
    · rcases ih t hrest with ⟨j, hj, hr⟩ | ht
      · left
        exact ⟨j + 1, by simpa using Nat.succ_lt_succ hj, by simpa using hr⟩
      · right; exact ht

/-- A cons with no match splits into no match at the head and none in the tail. -/
theorem hasMatchA_cons_false {M : List Atom} {c : Char} {cs : List Char}
    (h : hasMatchA M (c :: cs) = false) :
    (runA M (c :: cs)).isSome = false ∧ hasMatchA M cs = false := by
  unfold hasMatchA at h
  exact ⟨by cases hx : (runA M (c :: cs)).isSome <;> simp [hx] at h ⊢,
         by cases hx : hasMatchA M cs <;> simp [hx] at h ⊢⟩

/-- Absence of matches is preserved by dropping a prefix. -/
theorem hasMatchA_drop (M : List Atom) :
    ∀ (l : List Char), hasMatchA M l = false → ∀ k, hasMatchA M (l.drop k) = false := by
  intro l
  induction l with
  | nil => intro _ k; simp [hasMatchA]
  | cons c cs ih =>
    intro h k
    cases k with
    | zero => simpa using h
    | succ k => exact ih (hasMatchA_cons_false h).2 k

/-- Preservation: a replacement pass for any pattern `P` cannot create a
match of `M` when `M`-matches cannot start inside the replacement string
(`HA`) and no `M`-state can traverse it (`HB`). -/
theorem pres (P M : List Atom) (r : List Char)
    (HA : ∀ j, j < r.length → viaA M (r.drop j) = false)
    (HB : ∀ s ∈ statesOf M, viaA s r = false) :
    ∀ (fuel : Nat) (l : List Char), l.length ≤ fuel → hasMatchA M l = false →
      hasMatchA M (replaceAll P r fuel l) = false := by
  intro fuel
  induction fuel with
  | zero =>
    intro l hlen h
    have hl : l = [] := List.length_eq_zero.mp (Nat.le_zero.mp hlen)
    subst hl
    simp [replaceAll, hasMatchA]
  | succ fuel ih =>
    intro l hlen h
    cases l with
    | nil => simp [replaceAll, hasMatchA]
    | cons c cs =>
      obtain ⟨hrun, hcs⟩ := hasMatchA_cons_false h
      have hlen' : cs.length ≤ fuel := Nat.le_of_succ_le_succ (by simpa using hlen)
      cases hm : runA P (c :: cs) with
      | some n =>
        simp only [replaceAll, hm]
        cases hval : hasMatchA M (r ++ replaceAll P r fuel (cs.drop (n - 1))) with
        | false => rfl
        | true =>
          exfalso
          rcases hasMatchA_append_decomp M r _ hval with ⟨j, hj, hr⟩ | hT
          · have hv := viaA_of_runA_isSome (r.drop j) M _ hr
            rw [HA j hj] at hv
            exact absurd hv (by simp)
          · have hdlen : (cs.drop (n - 1)).length ≤ fuel :=
              le_trans (by rw [List.length_drop]; omega) hlen'
            have := ih (cs.drop (n - 1)) hdlen (hasMatchA_drop M cs hcs (n - 1))
            rw [this] at hT
            exact absurd hT (by simp)
      | none =>
        simp only [replaceAll, hm]
        unfold hasMatchA
        have h1 : (runA M (c :: replaceAll P r fuel cs)).isSome = false := by
          cases hr : (runA M (c :: replaceAll P r fuel cs)).isSome with
          | false => rfl
          | true =>
            exfalso
            have htr := runA_replaceAll_transfer P M r HB (fuel + 1) (c :: cs) M
              hlen (self_mem_statesOf M)
            simp only [replaceAll, hm] at htr
            have := htr hr
            rw [this] at hrun
            exact absurd hrun (by simp)
        rw [h1, ih cs hlen' hcs]
        rfl

/-- Establishment: a replacement pass for `M` itself leaves no `M`-match in
its output, under the same conditions on the replacement string. -/
theorem est (M : List Atom) (r : List Char)
    (HA : ∀ j, j < r.length → viaA M (r.drop j) = false)
    (HB : ∀ s ∈ statesOf M, viaA s r = false) :
    ∀ (fuel : Nat) (l : List Char), l.length ≤ fuel →
      hasMatchA M (replaceAll M r fuel l) = false := by
  intro fuel
  induction fuel with
  | zero =>
    intro l hlen
    have hl : l = [] := List.length_eq_zero.mp (Nat.le_zero.mp hlen)
    subst hl
    simp [replaceAll, hasMatchA]
  | succ fuel ih =>
    intro l hlen
    cases l with
    | nil => simp [replaceAll, hasMatchA]
    | cons c cs =>
      have hlen' : cs.length ≤ fuel := Nat.le_of_succ_le_succ (by simpa using hlen)
      cases hm : runA M (c :: cs) with
      | some n =>
        simp only [replaceAll, hm]
        cases hval : hasMatchA M (r ++ replaceAll M r fuel (cs.drop (n - 1))) with
        | false => rfl
        | true =>
          exfalso
          rcases hasMatchA_append_decomp M r _ hval with ⟨j, hj, hr⟩ | hT
          · have hv := viaA_of_runA_isSome (r.drop j) M _ hr
            rw [HA j hj] at hv
            exact absurd hv (by simp)
          · have hdlen : (cs.drop (n - 1)).length ≤ fuel :=
              le_trans (by rw [List.length_drop]; omega) hlen'
            rw [ih (cs.drop (n - 1)) hdlen] at hT
            exact absurd hT (by simp)
      | none =>
        simp only [replaceAll, hm]
        unfold hasMatchA
        have h1 : (runA M (c :: replaceAll M r fuel cs)).isSome = false := by
          cases hr : (runA M (c :: replaceAll M r fuel cs)).isSome with
          | false => rfl
          | true =>
            exfalso
            have htr := runA_replaceAll_transfer M M r HB (fuel + 1) (c :: cs) M
              hlen (self_mem_statesOf M)
            simp only [replaceAll, hm] at htr
            exact absurd (htr hr) (by simp)
        rw [h1, ih cs hlen']
        rfl

/-- A pass with no matches in its input returns the input unchanged. -/
theorem replaceAll_id (P : List Atom) (r : List Char) :
    ∀ (fuel : Nat) (l : List Char), hasMatchA P l = false →
      replaceAll P r fuel l = l := by
  intro fuel
  induction fuel with
  | zero => intro l _; cases l <;> rfl
  | succ fuel ih =>
    intro l h
    cases l with
    | nil => rfl
    | cons c cs =>
      obtain ⟨hrun, hcs⟩ := hasMatchA_cons_false h
      have hnone : runA P (c :: cs) = none := by
        cases hx : runA P (c :: cs) with
        | none => rfl
        | some n => rw [hx] at hrun; exact absurd hrun (by simp)
      simp only [replaceAll, hnone]
      rw [ih cs hcs]

/-- Preservation at the `replA` level. -/
theorem presA (P M : List Atom) (r : List Char)
    (HA : ∀ j, j < r.length → viaA M (r.drop j) = false)
    (HB : ∀ s ∈ statesOf M, viaA s r = false)
    (l : List Char) (h : hasMatchA M l = false) :
    hasMatchA M (replA P r l) = false :=
  pres P M r HA HB l.length l le_rfl h

/-- Establishment at the `replA` level. -/
theorem estA (M : List Atom) (r : List Char)
    (HA : ∀ j, j < r.length → viaA M (r.drop j) = false)
    (HB : ∀ s ∈ statesOf M, viaA s r = false)
    (l : List Char) :
    hasMatchA M (replA M r l) = false :=
  est M r HA HB l.length l le_rfl

/-- Identity at the `replA` level. -/
theorem replA_id (P : List Atom) (r : List Char) (l : List Char)
    (h : hasMatchA P l = false) : replA P r l = l :=
  replaceAll_id P r l.length l h

/-- Preservation, packaged over `okRepl`. -/
theorem presOk (P M : List Atom) (r : List Char) (h : okRepl M r)
    (l : List Char) (hl : hasMatchA M l = false) :
    hasMatchA M (replA P r l) = false :=
  presA P M r h.1 h.2 l hl

/-- Establishment, packaged over `okRepl`. -/
theorem estOk (M : List Atom) (r : List Char) (h : okRepl M r)
    (l : List Char) : hasMatchA M (replA M r l) = false :=
  estA M r h.1 h.2 l

/-- No `while`-loop header survives one pass of the sanitizer. -/
theorem sanitize_no_while (l : List Char) :
    hasMatchA whileParPat (sanitizeL l) = false := by
  simp only [sanitizeL]
  exact presOk globalThisDotPat whileParPat "void_".data (by decide) _
    (presOk documentDotPat whileParPat "void_".data (by decide) _
      (presOk windowDotPat whileParPat "void_".data (by decide) _
        (presOk setIntervalPat whileParPat "console.log".data (by decide) _
          (presOk setTimeoutPat whileParPat "console.log".data (by decide) _
            (presOk newFuncPat whileParPat "console.log".data (by decide) _
              (presOk evalParPat whileParPat "console.log(".data (by decide) _
                (presOk forParPat whileParPat "if(".data (by decide) _
                  (estOk whileParPat "if(".data (by decide) _))))))))

/-- No `for`-loop header survives one pass of the sanitizer. -/
theorem sanitize_no_for (l : List Char) :
    hasMatchA forParPat (sanitizeL l) = false := by
  simp only [sanitizeL]
  exact presOk globalThisDotPat forParPat "void_".data (by decide) _
    (presOk documentDotPat forParPat "void_".data (by decide) _
      (presOk windowDotPat forParPat "void_".data (by decide) _
        (presOk setIntervalPat forParPat "console.log".data (by decide) _
          (presOk setTimeoutPat forParPat "console.log".data (by decide) _
            (presOk newFuncPat forParPat "console.log".data (by decide) _
              (presOk evalParPat forParPat "console.log(".data (by decide) _
                (estOk forParPat "if(".data (by decide) _)))))))

/-- No `eval(` call survives one pass of the sanitizer. -/
theorem sanitize_no_eval (l : List Char) :
    hasMatchA evalParPat (sanitizeL l) = false := by
  simp only [sanitizeL]
  exact presOk globalThisDotPat evalParPat "void_".data (by decide) _
    (presOk documentDotPat evalParPat "void_".data (by decide) _
      (presOk windowDotPat evalParPat "void_".data (by decide) _
        (presOk setIntervalPat evalParPat "console.log".data (by decide) _
          (presOk setTimeoutPat evalParPat "console.log".data (by decide) _
            (presOk newFuncPat evalParPat "console.log".data (by decide) _
              (estOk evalParPat "console.log(".data (by decide) _))))))

/-- No `new Function` expression survives one pass of the sanitizer. -/
theorem sanitize_no_newFunc (l : List Char) :
    hasMatchA newFuncPat (sanitizeL l) = false := by
  simp only [sanitizeL]
  exact presOk globalThisDotPat newFuncPat "void_".data (by decide) _
    (presOk documentDotPat newFuncPat "void_".data (by decide) _
      (presOk windowDotPat newFuncPat "void_".data (by decide) _
        (presOk setIntervalPat newFuncPat "console.log".data (by decide) _
          (presOk setTimeoutPat newFuncPat "console.log".data (by decide) _
            (estOk newFuncPat "console.log".data (by decide) _)))))

/-- No `setTimeout` reference survives one pass of the sanitizer. -/
theorem sanitize_no_setTimeout (l : List Char) :
    hasMatchA setTimeoutPat (sanitizeL l) = false := by
  simp only [sanitizeL]
  exact presOk globalThisDotPat setTimeoutPat "void_".data (by decide) _
    (presOk documentDotPat setTimeoutPat "void_".data (by decide) _
      (presOk windowDotPat setTimeoutPat "void_".data (by decide) _
        (presOk setIntervalPat setTimeoutPat "console.log".data (by decide) _
          (estOk setTimeoutPat "console.log".data (by decide) _))))

/-- No `setInterval` reference survives one pass of the sanitizer. -/
theorem sanitize_no_setInterval (l : List Char) :
    hasMatchA setIntervalPat (sanitizeL l) = false := by
  simp only [sanitizeL]
  exact presOk globalThisDotPat setIntervalPat "void_".data (by decide) _
    (presOk documentDotPat setIntervalPat "void_".data (by decide) _
      (presOk windowDotPat setIntervalPat "void_".data (by decide) _
        (estOk setIntervalPat "console.log".data (by decide) _)))

/-- No `window.` access survives one pass of the sanitizer. -/
theorem sanitize_no_window (l : List Char) :
    hasMatchA windowDotPat (sanitizeL l) = false := by
  simp only [sanitizeL]
  exact presOk globalThisDotPat windowDotPat "void_".data (by decide) _
    (presOk documentDotPat windowDotPat "void_".data (by decide) _
      (estOk windowDotPat "void_".data (by decide) _))

/-- No `document.` access survives one pass of the sanitizer. -/
theorem sanitize_no_document (l : List Char) :
    hasMatchA documentDotPat (sanitizeL l) = false := by
  simp only [sanitizeL]
  exact presOk globalThisDotPat documentDotPat "void_".data (by decide) _
    (estOk documentDotPat "void_".data (by decide) _)

/-- No `globalThis.` access survives one pass of the sanitizer. -/
theorem sanitize_no_globalThis (l : List Char) :
    hasMatchA globalThisDotPat (sanitizeL l) = false := by
  simp only [sanitizeL]
  exact estOk globalThisDotPat "void_".data (by decide) _

/-! ### Helper lemmas for the claim theorems -/

/-- A prefix of `x` is a prefix of `x ++ t`. -/
theorem isPrefB_append (n : List Char) :
    ∀ (x t : List Char), isPrefB n x = true → isPrefB n (x ++ t) = true := by
  induction n with
  | nil => intro x t _; rfl
  | cons c n' ih =>
    intro x t h
    cases x with
    | nil => simp [isPrefB] at h
    | cons d ds =>
      simp only [isPrefB, Bool.and_eq_true, decide_eq_true_eq] at h
      obtain ⟨h1, h2⟩ := h
      subst h1
      rw [List.cons_append]
      simp only [isPrefB, Bool.and_eq_true, decide_eq_true_eq]
      exact ⟨trivial, ih ds t h2⟩

/-- The empty needle occurs everywhere. -/
theorem containsL_nil (t : List Char) : containsL [] t = true := by
  cases t <;> simp [containsL, isPrefB]

/-- An occurrence in the suffix gives an occurrence in the whole. -/
theorem containsL_append_right (n : List Char) :
    ∀ (a t : List Char), containsL n t = true → containsL n (a ++ t) = true := by
  intro a
  induction a with
  | nil => intro t h; simpa using h
  | cons c a' ih =>
    intro t h
    rw [List.cons_append]
    unfold containsL
    rw [ih t h]
    simp

/-- An occurrence in the prefix gives an occurrence in the whole. -/
theorem containsL_append_left (n : List Char) :
    ∀ (a t : List Char), containsL n a = true → containsL n (a ++ t) = true := by
  intro a
  induction a with
  | nil =>
    intro t h
    unfold containsL at h
    cases n with
    | nil => simpa using containsL_nil t
    | cons c n' => simp [isPrefB] at h
  | cons c a' ih =>
    intro t h
    unfold containsL at h
    rw [List.cons_append]
    unfold containsL
    rcases Bool.or_eq_true_iff.mp h with h1 | h2
    · rw [show (c :: (a' ++ t)) = (c :: a') ++ t from rfl, isPrefB_append n (c :: a') t h1]
      rfl
    · rw [ih t h2]
      simp

/-- A list whose first summand has positive length is not empty. -/
theorem ne_nil_left_append {a t : List Char} (h : a.length ≠ 0) : a ++ t ≠ [] := by
  intro he
  have hl := congrArg List.length he
  simp only [List.length_append, List.length_nil] at hl
  omega

/-- Both clamp bounds. -/
theorem clamp255_range (z : Int) : 0 ≤ clamp255 z ∧ clamp255 z ≤ 255 := by
  unfold clamp255 jsMaxI jsMinI
  split <;> split <;> omega

/-! ### Claim theorems -/

/-- Claim C1, amended.  When a new name's processed fragment fails to
compile, `registerCustomParticle` raises the error to the caller, no id is
consumed (the counter and the engine's element and action tables are
unchanged, and no action callable is stored) — but the name-to-colorId map
and the menu-name map do retain the entries written before compilation,
since the source stores them ahead of the `try` block
(src/custom-particles.js:288-291). -/
theorem C1_register_compile_failure (compile : String → Option Nat) (st : RegState)
    (pd : ParticleData)
    (hnew : jsTruthyLookup st.customElementColors pd.name = none)
    (hcomp : compile (buildActionCode pd.action_code pd.name
      (inGameColor pd.color.1 pd.color.2.1 pd.color.2.2) false) = none) :
    registerCustomParticle compile st pd =
      (⟨alSet pd.name (inGameColor pd.color.1 pd.color.2.1 pd.color.2.2)
          st.customElementColors,
        st.customElementActions,
        alSet (inGameColor pd.color.1 pd.color.2.1 pd.color.2.2) pd.name st.menuNames,
        st.elements, st.elementActions, st.nextCustomElementIdx⟩,
        .error "Failed to create action function") := by
  unfold registerCustomParticle
  simp only [hnew, hcomp]

/-- Claim C1, counterexample to the claim as stated: on a failing compile
for a fresh name the registration raises, yet the name-to-colorId map and
the menu-name map are *not* left as they were — both have gained an entry. -/
theorem C1_counterexample :
    (registerCustomParticle (fun _ => none) ⟨[], [], [], [], [], 64⟩
      ⟨"X", (1, 2, 3), "y"⟩).2 = .error "Failed to create action function" ∧
    (registerCustomParticle (fun _ => none) ⟨[], [], [], [], [], 64⟩
      ⟨"X", (1, 2, 3), "y"⟩).1.customElementColors ≠ [] ∧
    (registerCustomParticle (fun _ => none) ⟨[], [], [], [], [], 64⟩
      ⟨"X", (1, 2, 3), "y"⟩).1.menuNames ≠ [] := by
  decide

/-- Witness for C1 at a concrete input. -/
theorem C1_witness :
    registerCustomParticle (fun _ => none) ⟨[], [], [], [], [], 64⟩
        ⟨"W", (9, 8, 7), "q"⟩ =
      (⟨alSet "W" (inGameColor 9 8 7) [], [], alSet (inGameColor 9 8 7) "W" [],
        [], [], 64⟩, .error "Failed to create action function") :=
  C1_register_compile_failure (fun _ => none) ⟨[], [], [], [], [], 64⟩
    ⟨"W", (9, 8, 7), "q"⟩ rfl rfl

/-- Claim C2, amended.  The id of a newly registered name is the in-game
color value computed from the requested channels — not a value drawn from
the `nextCustomElementIdx` counter, which is incremented but never read
(src/custom-particles.js:285,364).  Distinctness of ids therefore depends
only on the colors, not the names. -/
theorem C2_id_is_color_value (compile : String → Option Nat) (st : RegState)
    (pd : ParticleData) (f : Nat)
    (hnew : jsTruthyLookup st.customElementColors pd.name = none)
    (hcomp : compile (buildActionCode pd.action_code pd.name
      (inGameColor pd.color.1 pd.color.2.1 pd.color.2.2) false) = some f) :
    (registerCustomParticle compile st pd).2 =
      .ok (inGameColor pd.color.1 pd.color.2.1 pd.color.2.2) ∧
    (registerCustomParticle compile st pd).1.nextCustomElementIdx =
      st.nextCustomElementIdx + 1 := by
  refine ⟨?_, ?_⟩ <;>
    (unfold registerCustomParticle; simp only [hnew, hcomp])

/-- Claim C2, counterexample to the claim as stated: two registrations of
the *different* names `"A"` and `"B"` with the same color return the same
id. -/
theorem C2_counterexample :
    ("A" : String) ≠ "B" ∧
    (registerCustomParticle (fun _ => some 0) ⟨[], [], [], [], [], 64⟩
      ⟨"A", (5, 6, 7), "z"⟩).2 = .ok (inGameColor 5 6 7) ∧
    (registerCustomParticle (fun _ => some 0)
      (registerCustomParticle (fun _ => some 0) ⟨[], [], [], [], [], 64⟩
        ⟨"A", (5, 6, 7), "z"⟩).1 ⟨"B", (5, 6, 7), "z"⟩).2 = .ok (inGameColor 5 6 7) := by
  decide

/-- Witness for C2 at a concrete input. -/
theorem C2_witness :
    jsTruthyLookup ([] : List (String × Int)) "GOLD" = none ∧
    ((registerCustomParticle (fun _ => some 3) ⟨[], [], [], [], [], 64⟩
        ⟨"GOLD", (1, 2, 3), "w"⟩).2 = .ok (inGameColor 1 2 3) ∧
      (registerCustomParticle (fun _ => some 3) ⟨[], [], [], [], [], 64⟩
        ⟨"GOLD", (1, 2, 3), "w"⟩).1.nextCustomElementIdx = 64 + 1) :=
  ⟨rfl, C2_id_is_color_value (fun _ => some 3) ⟨[], [], [], [], [], 64⟩
    ⟨"GOLD", (1, 2, 3), "w"⟩ 3 rfl rfl⟩

/-- Claim C3, confirmed.  Re-registering a name that already holds a
truthy colorId returns the same id, replaces only the stored action
callable for that id, leaves the name-to-colorId map, the menu-name map,
the engine's element list, the engine's action list and the counter
untouched, and a subsequent lookup of the name still returns the original
id (src/custom-particles.js:206-281). -/
theorem C3_update_keeps_id (compile : String → Option Nat) (st : RegState)
    (pd : ParticleData) (c : Int) (f : Nat)
    (hex : jsTruthyLookup st.customElementColors pd.name = some c)
    (hcomp : compile (buildActionCode pd.action_code pd.name c true) = some f) :
    registerCustomParticle compile st pd =
      (⟨st.customElementColors, alSet c ⟨f, pd.name⟩ st.customElementActions,
        st.menuNames, st.elements, st.elementActions, st.nextCustomElementIdx⟩,
        .ok c) ∧
    jsTruthyLookup (registerCustomParticle compile st pd).1.customElementColors
      pd.name = some c := by
  have h1 : registerCustomParticle compile st pd =
      (⟨st.customElementColors, alSet c ⟨f, pd.name⟩ st.customElementActions,
        st.menuNames, st.elements, st.elementActions, st.nextCustomElementIdx⟩,
        .ok c) := by
    unfold registerCustomParticle
    simp only [hex, hcomp]
  refine ⟨h1, ?_⟩
  rw [h1]
  exact hex

/-- Witness for C3 at a concrete input. -/
theorem C3_witness :
    jsTruthyLookup [("TNT", -123)] "TNT" = some (-123) ∧
    (registerCustomParticle (fun _ => some 1) ⟨[("TNT", -123)], [], [], [], [], 65⟩
        ⟨"TNT", (0, 0, 0), "v"⟩ =
      (⟨[("TNT", -123)], alSet (-123) ⟨1, "TNT"⟩ [], [], [], [], 65⟩, .ok (-123)) ∧
      jsTruthyLookup (registerCustomParticle (fun _ => some 1)
          ⟨[("TNT", -123)], [], [], [], [], 65⟩
          ⟨"TNT", (0, 0, 0), "v"⟩).1.customElementColors "TNT" = some (-123)) :=
  ⟨by decide, C3_update_keeps_id (fun _ => some 1) ⟨[("TNT", -123)], [], [], [], [], 65⟩
    ⟨"TNT", (0, 0, 0), "v"⟩ (-123) 1 (by decide) rfl⟩

/-- Claim C4, confirmed.  The wrapped callable always returns normally
(never propagates an exception), and whenever the inner callable throws,
the result is exactly the name-keyword fallback: explosive names set the
cell to fire, liquid names apply the density-flow primitive, gas names
apply the rise primitive, all others gravity
(src/custom-particles.js:420-456). -/
theorem C4_wrapper_never_throws {G : Type} (prims : EnginePrims G)
    (actionFn : G → Nat → Nat → Nat → Except String G) (particleName : String)
    (g : G) (x y i : Nat) :
    ∃ g', createSafeParticleAction prims actionFn particleName g x y i = .ok g' ∧
      (∀ e, actionFn g x y i = .error e →
        g' = applyFallback prims particleName g x y i) := by
  have heq : createSafeParticleAction prims actionFn particleName g x y i =
      match actionFn g x y i with
      | .ok g' => Except.ok g'
      | .error _ => Except.ok (applyFallback prims particleName g x y i) := rfl
  cases h : actionFn g x y i with
  | ok g0 =>
    rw [heq, h]
    exact ⟨g0, rfl, fun e he => absurd he (by simp)⟩
  | error e0 =>
    rw [heq, h]
    exact ⟨applyFallback prims particleName g x y i, rfl, fun e _ => rfl⟩

/-- Witness for C4 at a concrete input (an always-throwing callable and an
explosive name: the fallback fires). -/
theorem C4_witness :
    ∃ g', createSafeParticleAction
        (⟨fun g i => g + i, fun g _ _ _ => g + 1, fun g _ _ _ => g + 2,
          fun g _ _ _ => g + 3⟩ : EnginePrims Nat)
        (fun _ _ _ _ => .error "boom") "TNT" 0 1 2 3 = .ok g' ∧
      (∀ e, (fun (_ : Nat) (_ _ _ : Nat) =>
          (Except.error "boom" : Except String Nat)) 0 1 2 3 = .error e →
        g' = applyFallback
          (⟨fun g i => g + i, fun g _ _ _ => g + 1, fun g _ _ _ => g + 2,
            fun g _ _ _ => g + 3⟩ : EnginePrims Nat) "TNT" 0 1 2 3) :=
  C4_wrapper_never_throws _ _ "TNT" 0 1 2 3

/-- A string on which every sanitizer pass is inert is a fixed point of the
sanitizer. -/
theorem sanitizeL_fixed (y : List Char)
    (h1 : hasMatchA funcDefPat y = false)
    (h2 : hasMatchA whileParPat y = false)
    (h3 : hasMatchA forParPat y = false)
    (h4 : hasMatchA evalParPat y = false)
    (h5 : hasMatchA newFuncPat y = false)
    (h6 : hasMatchA setTimeoutPat y = false)
    (h7 : hasMatchA setIntervalPat y = false)
    (h8 : hasMatchA windowDotPat y = false)
    (h9 : hasMatchA documentDotPat y = false)
    (h10 : hasMatchA globalThisDotPat y = false) :
    sanitizeL y = y := by
  simp only [sanitizeL]
  rw [replA_id _ _ _ h1, replA_id _ _ _ h2, replA_id _ _ _ h3, replA_id _ _ _ h4,
    replA_id _ _ _ h5, replA_id _ _ _ h6, replA_id _ _ _ h7, replA_id _ _ _ h8,
    replA_id _ _ _ h9, replA_id _ _ _ h10]

/-- Claim C5, amended.  The sanitizer is idempotent on every input whose
sanitized form contains no function-definition header: all other passes can
never re-create their own patterns (established by the `sanitize_no_*`
lemmas), while the function-definition removal can splice one together,
which is the one source of non-idempotence. -/
theorem C5_sanitize_idempotent (x : String)
    (h : hasMatchA funcDefPat (sanitizeL x.data) = false) :
    sanitizeActionCode (sanitizeActionCode x) = sanitizeActionCode x := by
  have hd : sanitizeActionCode x = String.mk (sanitizeL x.data) := rfl
  have hd1 : ∀ l : List Char, sanitizeActionCode (String.mk l) = String.mk (sanitizeL l) :=
    fun _ => rfl
  rw [hd, hd1]
  exact congrArg String.mk (sanitizeL_fixed (sanitizeL x.data) h (sanitize_no_while x.data)
    (sanitize_no_for x.data) (sanitize_no_eval x.data) (sanitize_no_newFunc x.data)
    (sanitize_no_setTimeout x.data) (sanitize_no_setInterval x.data)
    (sanitize_no_window x.data) (sanitize_no_document x.data)
    (sanitize_no_globalThis x.data))

set_option maxHeartbeats 1000000 in
/-- Claim C5, counterexample to the claim as stated: removing
`function a(` from this input splices `func` and `tion b (` into a fresh
function-definition header, which only a second pass removes, so
`sanitize ∘ sanitize ≠ sanitize` here. -/
theorem C5_counterexample :
    sanitizeActionCode (sanitizeActionCode "funcfunction a(tion b (") ≠
      sanitizeActionCode "funcfunction a(tion b (" := by
  decide

set_option maxHeartbeats 1000000 in
/-- Witness for C5 at a concrete input. -/
theorem C5_witness :
    hasMatchA funcDefPat (sanitizeL ("while (a) x();" : String).data) = false ∧
    sanitizeActionCode (sanitizeActionCode "while (a) x();") =
      sanitizeActionCode "while (a) x();" :=
  ⟨by decide, C5_sanitize_idempotent "while (a) x();" (by decide)⟩

/-- Claim C6, confirmed.  After a single sanitizer pass no occurrence of
`while` or `for` followed by optional whitespace and `(` survives — also
none newly formed by the function-definition removal splicing text
together, since the loop-downgrading passes run afterwards and the later
passes' replacement strings can neither start nor continue a loop header. -/
theorem C6_no_loop_headers (x : String) :
    hasMatchA whileParPat (sanitizeActionCode x).data = false ∧
    hasMatchA forParPat (sanitizeActionCode x).data = false := by
  have hd : sanitizeActionCode x = String.mk (sanitizeL x.data) := rfl
  have hd2 : ∀ l : List Char, (String.mk l).data = l := fun _ => rfl
  rw [hd, hd2]
  exact ⟨sanitize_no_while x.data, sanitize_no_for x.data⟩

/-- Claim C7, amended.  For channels in `[0,255]` the adjusted color's
channels are integers in `[0,255]` (the final clamp guarantees it); the
claim's "differs from the input" part is false — see the counterexample. -/
theorem C7_adjust_in_range (color : Int × Int × Int) (name : String)
    (h : 0 ≤ color.1 ∧ color.1 ≤ 255 ∧ 0 ≤ color.2.1 ∧ color.2.1 ≤ 255 ∧
      0 ≤ color.2.2 ∧ color.2.2 ≤ 255) :
    0 ≤ (adjustColorForUniqueness color name).1 ∧
    (adjustColorForUniqueness color name).1 ≤ 255 ∧
    0 ≤ (adjustColorForUniqueness color name).2.1 ∧
    (adjustColorForUniqueness color name).2.1 ≤ 255 ∧
    0 ≤ (adjustColorForUniqueness color name).2.2 ∧
    (adjustColorForUniqueness color name).2.2 ≤ 255 :=
  ⟨(clamp255_range _).1, (clamp255_range _).2, (clamp255_range _).1,
   (clamp255_range _).2, (clamp255_range _).1, (clamp255_range _).2⟩

/-- Claim C7, counterexample to the claim as stated: a fire-keyword name
with all channels already at 255 is returned unchanged, so the output does
not differ from the input. -/
theorem C7_counterexample :
    adjustColorForUniqueness (255, 255, 255) "FIRE" = (255, 255, 255) := by
  decide

/-- Witness for C7 at a concrete input. -/
theorem C7_witness :
    (0 ≤ ((10 : Int), (20 : Int), (30 : Int)).1 ∧
      ((10 : Int), (20 : Int), (30 : Int)).1 ≤ 255 ∧
      0 ≤ ((10 : Int), (20 : Int), (30 : Int)).2.1 ∧
      ((10 : Int), (20 : Int), (30 : Int)).2.1 ≤ 255 ∧
      0 ≤ ((10 : Int), (20 : Int), (30 : Int)).2.2 ∧
      ((10 : Int), (20 : Int), (30 : Int)).2.2 ≤ 255) ∧
    (0 ≤ (adjustColorForUniqueness (10, 20, 30) "ROCK").1 ∧
      (adjustColorForUniqueness (10, 20, 30) "ROCK").1 ≤ 255 ∧
      0 ≤ (adjustColorForUniqueness (10, 20, 30) "ROCK").2.1 ∧
      (adjustColorForUniqueness (10, 20, 30) "ROCK").2.1 ≤ 255 ∧
      0 ≤ (adjustColorForUniqueness (10, 20, 30) "ROCK").2.2 ∧
      (adjustColorForUniqueness (10, 20, 30) "ROCK").2.2 ≤ 255) :=
  ⟨by decide, C7_adjust_in_range (10, 20, 30) "ROCK" (by decide)⟩

/-- Claim C8, counterexample to the claim as stated: the distance from
`[255,60,30]` to the FIRE palette entry `[255,0,10]` is `√4000 ≈ 63.2`,
not below the threshold (so FIRE is not what flags TNT), and the adjuster
does not apply the fire-keyword additive offsets to the name `"TNT"`. -/
theorem C8_counterexample :
    distSq (255, 60, 30) (255, 0, 10) = 4000 ∧
    ¬ distSq (255, 60, 30) (255, 0, 10) < 3600 ∧
    adjustColorForUniqueness (255, 60, 30) "TNT" = (51, 207, 231) ∧
    adjustColorForUniqueness (255, 60, 30) "TNT" ≠
      (jsMinI 255 (255 + 20), jsMinI 255 (60 + 80), jsMinI 255 (30 + 120)) := by
  decide

/-- Claim C8, amended.  The TNT description is indeed flagged invalid, but
by the LAVA palette entry `[245,110,40]` at squared distance `2700`
(`≈ 52 < 60`), while the FIRE distance is `√4000 ≥ 60`; and since `"TNT"`
matches no color keyword, the adjuster applies the general
saturation-and-complement rule, giving `[51,207,231]`. -/
theorem C8_tnt_flagged_by_lava :
    (validateUniqueParticle tntTestParticle).isValid = false ∧
    (validateUniqueParticle tntTestParticle).message =
      "Color [255,60,30] is too similar to LAVA [245,110,40]" ∧
    distSq (255, 60, 30) (245, 110, 40) = 2700 ∧
    distSq (255, 60, 30) (245, 110, 40) < 3600 ∧
    adjustColorForUniqueness (255, 60, 30) "TNT" = (51, 207, 231) := by
  decide

/-- A trivial fragment is handed to `enhanceCodeBasedOnName`. -/
theorem preTrivial_enh (code : List Char) (pn : String) (c : Int)
    (htriv : (trimL code).length < 50 ∨ trimL code = degenerateGravity) :
    preTrivial code pn c = enhanceCodeBasedOnName code pn c := by
  unfold preTrivial
  have hc : (decide ((trimL code).length < 50) ||
      decide (trimL code = degenerateGravity)) = true := by
    rcases htriv with h | h <;> simp [h]
  rw [if_pos hc]

/-- The hair-category template is never empty. -/
theorem hairTemplate_ne_nil (pn : String) (c : Int) : hairTemplate pn c ≠ [] := by
  unfold hairTemplate
  simp only [String.data_append, List.append_assoc]
  exact ne_nil_left_append (by decide)

/-- The gas-category template is never empty. -/
theorem gasTemplate_ne_nil (pn : String) : gasTemplate pn ≠ [] := by
  unfold gasTemplate
  simp only [String.data_append, List.append_assoc]
  exact ne_nil_left_append (by decide)

/-- The liquid-category template is never empty. -/
theorem liquidTemplate_ne_nil (pn : String) (b1 b2 : Bool) :
    liquidTemplate pn b1 b2 ≠ [] := by
  unfold liquidTemplate
  simp only [String.data_append, List.append_assoc]
  exact ne_nil_left_append (by decide)

/-- The hair-category template contains a conditional keyword. -/
theorem hairTemplate_has_if (pn : String) (c : Int) :
    containsL "if".data (hairTemplate pn c) = true := by
  unfold hairTemplate
  simp only [String.data_append, List.append_assoc]
  apply containsL_append_right
  apply containsL_append_right
  apply containsL_append_left
  decide

/-- The gas-category template contains a conditional keyword. -/
theorem gasTemplate_has_if (pn : String) :
    containsL "if".data (gasTemplate pn) = true := by
  unfold gasTemplate
  simp only [String.data_append, List.append_assoc]
  apply containsL_append_right
  apply containsL_append_right
  decide

/-- The liquid-category template contains a conditional keyword. -/
theorem liquidTemplate_has_if (pn : String) (b1 b2 : Bool) :
    containsL "if".data (liquidTemplate pn b1 b2) = true := by
  unfold liquidTemplate
  simp only [String.data_append, List.append_assoc]
  apply containsL_append_right
  apply containsL_append_right
  apply containsL_append_right
  apply containsL_append_right
  apply containsL_append_left
  decide

/-- Claim C9, amended.  For a name whose uppercase form matches one of the
three category keyword sets (hair/fur/string, gas/smoke/vapor/steam,
water/liquid/oil/juice/blood) and any fragment below the triviality
threshold (or equal to the degenerate gravity call), the substituted
category template is non-empty and contains the conditional keyword `if`,
and the substitution is deterministic in the name: any two trivial
fragments produce the same output.  For names matching no category the
fragment falls through unmodified (see the counterexample). -/
theorem C9_trivial_fragment_category_template (particleName : String)
    (code code' : List Char) (elementColor : Int)
    (htriv : (trimL code).length < 50 ∨ trimL code = degenerateGravity)
    (htriv' : (trimL code').length < 50 ∨ trimL code' = degenerateGravity)
    (hcat :
      containsL "HAIR".data (toUpperL particleName.data) = true ∨
      containsL "FUR".data (toUpperL particleName.data) = true ∨
      containsL "STRING".data (toUpperL particleName.data) = true ∨
      containsL "GAS".data (toUpperL particleName.data) = true ∨
      containsL "SMOKE".data (toUpperL particleName.data) = true ∨
      containsL "VAPOR".data (toUpperL particleName.data) = true ∨
      containsL "STEAM".data (toUpperL particleName.data) = true ∨
      containsL "WATER".data (toUpperL particleName.data) = true ∨
      containsL "LIQUID".data (toUpperL particleName.data) = true ∨
      containsL "OIL".data (toUpperL particleName.data) = true ∨
      containsL "JUICE".data (toUpperL particleName.data) = true ∨
      containsL "BLOOD".data (toUpperL particleName.data) = true) :
    preTrivial code particleName elementColor ≠ [] ∧
    containsL "if".data (preTrivial code particleName elementColor) = true ∧
    preTrivial code' particleName elementColor =
      preTrivial code particleName elementColor := by
  rw [preTrivial_enh code particleName elementColor htriv,
    preTrivial_enh code' particleName elementColor htriv']
  unfold enhanceCodeBasedOnName
  cases hhair : (containsL "HAIR".data (toUpperL particleName.data) ||
      containsL "FUR".data (toUpperL particleName.data) ||
      containsL "STRING".data (toUpperL particleName.data)) with
  | true =>
    simp only [hhair, if_pos]
    exact ⟨hairTemplate_ne_nil _ _, hairTemplate_has_if _ _, trivial⟩
  | false =>
    simp only [hhair, Bool.false_eq_true, if_neg, if_false]
    cases hgas : (containsL "GAS".data (toUpperL particleName.data) ||
        containsL "SMOKE".data (toUpperL particleName.data) ||
        containsL "VAPOR".data (toUpperL particleName.data) ||
        containsL "STEAM".data (toUpperL particleName.data)) with
    | true =>
      simp only [hgas, if_pos]
      exact ⟨gasTemplate_ne_nil _, gasTemplate_has_if _, trivial⟩
    | false =>
      simp only [hgas, Bool.false_eq_true, if_neg, if_false]
      cases hliq : (containsL "WATER".data (toUpperL particleName.data) ||
          containsL "LIQUID".data (toUpperL particleName.data) ||
          containsL "OIL".data (toUpperL particleName.data) ||
          containsL "JUICE".data (toUpperL particleName.data) ||
          containsL "BLOOD".data (toUpperL particleName.data)) with
      | true =>
        simp only [hliq, if_pos]
        exact ⟨liquidTemplate_ne_nil _ _ _, liquidTemplate_has_if _ _ _, trivial⟩
      | false =>
        exfalso
        rcases hcat with h|h|h|h|h|h|h|h|h|h|h|h <;> simp_all

/-- Claim C9, counterexample to the claim as stated: the name `"ROCK"`
matches no category keyword, so the empty trivial fragment passes through
the whole rewriter unchanged — the output is empty and contains no
conditional keyword. -/
theorem C9_counterexample :
    preprocessActionCode [] "ROCK" (inGameColor 200 200 200) = [] ∧
    containsL "if".data (preprocessActionCode [] "ROCK" (inGameColor 200 200 200)) =
      false := by
  decide

/-- Witness for C9 at a concrete input. -/
theorem C9_witness :
    ((trimL ([] : List Char)).length < 50 ∨ trimL [] = degenerateGravity) ∧
    ((trimL ("x" : String).data).length < 50 ∨ trimL "x".data = degenerateGravity) ∧
    (containsL "GAS".data (toUpperL ("GAS" : String).data) = true) ∧
    (preTrivial [] "GAS" 5 ≠ [] ∧
      containsL "if".data (preTrivial [] "GAS" 5) = true ∧
      preTrivial "x".data "GAS" 5 = preTrivial [] "GAS" 5) :=
  ⟨Or.inl (by decide), Or.inl (by decide), by decide,
    C9_trivial_fragment_category_template "GAS" [] "x".data 5 (Or.inl (by decide))
      (Or.inl (by decide))
      (Or.inr (Or.inr (Or.inr (Or.inl (by decide)))))⟩

/-- Claim C10, confirmed.  Whenever response finalization succeeds, the
returned description's name is the uppercased requested name — a
service-supplied name that differs is silently overwritten
(src/openai.js:528-533). -/
theorem C10_name_forced (particleName : String) (pd : RawGen) (res : GenParticle)
    (h : finalizeParticleData particleName pd = .ok res) :
    res.name = toUpperS particleName := by
  simp only [finalizeParticleData] at h
  split at h
  · exact absurd h (by simp)
  · split at h
    · exact absurd h (by simp)
    · split at h
      · exact absurd h (by simp)
      · split at h
        · split at h
          · split at h <;>
              (have hres := Except.ok.inj h; subst hres; rfl)
          · rename_i hne
            simp only [ne_eq, not_not] at hne
            split at h <;>
              (have hres := Except.ok.inj h; subst hres; exact hne)
        · exact absurd h (by simp)

/-- Witness for C10 at a concrete input: the service answers with the name
`"WRONG"` but the finalized description carries `"TNT"`. -/
theorem C10_witness :
    finalizeParticleData "tnt" ⟨"WRONG", some [255, 0, 255], "abc"⟩ =
      .ok ⟨"TNT", (255, 0, 255), "abc"⟩ ∧
    (⟨"TNT", (255, 0, 255), "abc"⟩ : GenParticle).name = toUpperS "tnt" :=
  ⟨by decide, C10_name_forced "tnt" ⟨"WRONG", some [255, 0, 255], "abc"⟩
    ⟨"TNT", (255, 0, 255), "abc"⟩ (by decide)⟩
